import Mathlib

/-!
A verification development for the vault service broker's tenant lifecycle
engine. The Go source is shallowly embedded: pure helpers become Lean
functions, the vault client's observable behaviour (mount table, logical
store, token endpoints) is passed in as explicit state or environment
records, and fallible paths return `Except`. Machine-irrelevant parts
(loggers, locks, goroutine scheduling) are dropped; the values they carry
(log warnings, spawned renewer tasks) are recorded in effect lists so that
theorems can speak about them.
-/

namespace VaultBroker

/-! ## Basic characters used by the escapers (named to keep literals tidy) -/

/-- The double-quote character. -/
def quoteC : Char := Char.ofNat 34

/-- The apostrophe character. -/
def aposC : Char := Char.ofNat 39

/-- The backslash character. -/
def bslashC : Char := Char.ofNat 92

/-! ## Data model: `SecretEngineType`, `Mount`, `Details` (models.go, part_000)

In Go, `SecretEngineType` is a string type with two named constants, and
`PathType` maps them to path suffixes, returning `""` on anything else.
-/

/-- Go: `type SecretEngineType string`. -/
abbrev SecretEngineType := String

/-- Go: `KV SecretEngineType = "generic"`. -/
def KV : SecretEngineType := "generic"

/-- Go: `Transit = "transit"`. -/
def Transit : SecretEngineType := "transit"

/-- Go: `func (s SecretEngineType) PathType() string` — `secret` for KV,
`transit` for Transit, `""` otherwise. -/
def SecretEngineType.PathType (s : SecretEngineType) : String :=
  if s = KV then "secret"
  else if s = Transit then "transit"
  else ""

/-- Go: `type Mount struct`. The Go field `Type` is named `mtype` here since
`Type` is reserved in Lean. -/
structure Mount where
  AbsolutePath : String
  Name : String
  GUID : String
  mtype : SecretEngineType
deriving DecidableEq, Repr

/-- Go: `func (m *Mount) Path() string`.
If `AbsolutePath` is non-empty the result is `/cf/<AbsolutePath>`;
otherwise the base is `GUID`, replaced by `Name-GUID` when `Name` is
non-empty, and the result is `/cf/<base>/<PathType>`. -/
def Mount.Path (m : Mount) : String :=
  if m.AbsolutePath ≠ "" then
    "/cf/" ++ m.AbsolutePath
  else
    "/cf/" ++ (if m.Name ≠ "" then m.Name ++ "-" ++ m.GUID else m.GUID)
      ++ "/" ++ m.mtype.PathType

/-- The effective base segment of a non-absolute mount: `GUID` when the name
is empty, `Name-GUID` otherwise (the `path` local of the Go `Path` method). -/
def Mount.base (m : Mount) : String :=
  if m.Name ≠ "" then m.Name ++ "-" ++ m.GUID else m.GUID

/-- Go: `type Details struct` (part_000) — the identity of a provisioned
tenant. -/
structure Details where
  OrganizationName : String
  OrganizationGUID : String
  SpaceName : String
  SpaceGUID : String
  ServiceInstanceName : String
  ServiceInstanceGUID : String
deriving DecidableEq, Repr

/-- Go: `func (d *Details) NamesPopulated() bool` — false as soon as any of
the three names is empty. -/
def Details.NamesPopulated (d : Details) : Bool :=
  if d.OrganizationName = "" then false
  else if d.SpaceName = "" then false
  else if d.ServiceInstanceName = "" then false
  else true

/-! ## Policy renderer (part_001)

The Go renderer parses the template constants with `html/template` and
executes them against a `Details` value. In an `html/template` text context
every interpolated value is HTML-escaped (`htmlEscaper`): `<`, `>`, `&`,
double quote and apostrophe are replaced by character references, and NUL
by U+FFFD. Everything outside the `\x7b\x7b .Field \x7d\x7d` actions is
emitted verbatim, so rendering is literal-segment concatenation with
escaped field values. -/

/-- The `html/template` text-context escaper for one character
(Go `htmlReplacementTable`). -/
def htmlEscapeChar (c : Char) : String :=
  if c = quoteC then "&#34;"
  else if c = aposC then "&#39;"
  else if c = '&' then "&amp;"
  else if c = '<' then "&lt;"
  else if c = '>' then "&gt;"
  else if c = Char.ofNat 0 then "�"
  else String.singleton c

/-- HTML-escape a whole string, character by character. -/
def htmlEscape (s : String) : String :=
  String.join (s.data.map htmlEscapeChar)

/-- One `path` block exactly as it appears in the policy template constants:
`path "<p>" \x7b` newline, `<indent>capabilities = [<caps>]` newline,
`\x7d` newline. The indent is two spaces in most blocks and a tab in the
service-instance wildcard blocks, faithfully to the source text. -/
def policyBlock (p caps indent : String) : String :=
  "path \"" ++ p ++ "\" \x7b\n" ++ indent ++ "capabilities = [" ++ caps ++ "]\n\x7d\n"

/-- Capability list text `"list"`. -/
def capsL : String := "\"list\""

/-- Capability list text `"create", "read", "update", "delete", "list"`. -/
def capsCRUDL : String := "\"create\", \"read\", \"update\", \"delete\", \"list\""

/-- Capability list text `"read", "list"`. -/
def capsRL : String := "\"read\", \"list\""

/-- `ServicePolicyTemplateWithoutNames` rendered against `d` by
`html/template`: the template's literal segments with the three guids
HTML-escaped in place of the actions. -/
def renderWithoutNames (d : Details) : String :=
  "\n" ++ policyBlock ("cf/" ++ htmlEscape d.ServiceInstanceGUID) capsL "  " ++ "\n"
  ++ policyBlock ("cf/" ++ htmlEscape d.ServiceInstanceGUID ++ "/*") capsCRUDL "\t" ++ "\n"
  ++ policyBlock ("cf/" ++ htmlEscape d.SpaceGUID) capsL "  " ++ "\n"
  ++ policyBlock ("cf/" ++ htmlEscape d.SpaceGUID ++ "/*") capsCRUDL "  " ++ "\n"
  ++ policyBlock ("cf/" ++ htmlEscape d.OrganizationGUID) capsL "  " ++ "\n"
  ++ policyBlock ("cf/" ++ htmlEscape d.OrganizationGUID ++ "/*") capsRL "  "

/-- `ServicePolicyTemplateWithNames` rendered against `d` by
`html/template`, block for block in template order. -/
def renderWithNames (d : Details) : String :=
  "\n" ++ policyBlock ("cf/" ++ htmlEscape d.ServiceInstanceName ++ "-"
      ++ htmlEscape d.ServiceInstanceGUID) capsL "  " ++ "\n"
  ++ policyBlock ("cf/" ++ htmlEscape d.ServiceInstanceGUID) capsL "  " ++ "\n"
  ++ policyBlock ("cf/" ++ htmlEscape d.ServiceInstanceName ++ "-"
      ++ htmlEscape d.ServiceInstanceGUID ++ "/*") capsCRUDL "\t" ++ "\n"
  ++ policyBlock ("cf/" ++ htmlEscape d.ServiceInstanceGUID ++ "/*") capsCRUDL "\t" ++ "\n"
  ++ policyBlock ("cf/" ++ htmlEscape d.SpaceName ++ "-"
      ++ htmlEscape d.SpaceGUID) capsL "  " ++ "\n"
  ++ policyBlock ("cf/" ++ htmlEscape d.SpaceGUID) capsL "  " ++ "\n"
  ++ policyBlock ("cf/" ++ htmlEscape d.SpaceName ++ "-"
      ++ htmlEscape d.SpaceGUID ++ "/*") capsCRUDL "  " ++ "\n"
  ++ policyBlock ("cf/" ++ htmlEscape d.SpaceGUID ++ "/*") capsCRUDL "  " ++ "\n"
  ++ policyBlock ("cf/" ++ htmlEscape d.OrganizationName ++ "-"
      ++ htmlEscape d.OrganizationGUID) capsL "  " ++ "\n"
  ++ policyBlock ("cf/" ++ htmlEscape d.OrganizationGUID) capsL "  " ++ "\n"
  ++ policyBlock ("cf/" ++ htmlEscape d.OrganizationName ++ "-"
      ++ htmlEscape d.OrganizationGUID ++ "/*") capsRL "  " ++ "\n"
  ++ policyBlock ("cf/" ++ htmlEscape d.OrganizationGUID ++ "/*") capsRL "  "

/-- Go: `func GeneratePolicy(w io.Writer, details *Details) error` (part_001).
Selects the without-names template when `NamesPopulated` is false, the
with-names template otherwise; template parsing of the static constants
never fails, so the model returns the rendered document. -/
def GeneratePolicy (d : Details) : String :=
  if ! d.NamesPopulated then renderWithoutNames d
  else renderWithNames d

/-- `containsSub s sub` decides whether `sub` occurs as a contiguous
substring of `s`. -/
def containsSub (s sub : String) : Bool :=
  (s.data.tails).any (fun t => sub.data.isPrefixOf t)

/-! ## Mount coordinator (main.go `idempotentMount` / `idempotentUnmount`)

The vault mount table is modelled as the list of mounted path strings (the
keys of `Sys().ListMounts()`, which vault reports with surrounding
slashes). Both coordinator calls take one snapshot of the table, strip
leading and trailing `/` from every live path and from every desired
path, and then issue a vault `Mount`/`Unmount` call per desired path that
is absent/present. A successful `Mount(p)` adds `p` to the table; a
successful `Unmount(p)` removes the table entry whose trimmed path is
`p`. Vault errors abort the batch; the model covers the error-free runs
the claim quantifies over. -/

/-- Go `strings.Trim(s, "/")`: strip leading and trailing `/` characters. -/
def trimSlashes (s : String) : String :=
  ⟨((s.data.dropWhile (fun c => c = '/')).reverse.dropWhile (fun c => c = '/')).reverse⟩

/-- The desired, slash-trimmed mount path of a `Mount`
(`strings.Trim(mount.Path(), "/")` in both coordinator loops). -/
def mountDesired (m : Mount) : String :=
  trimSlashes m.Path

/-- The live mount set as the coordinator sees it: every table path
slash-trimmed (the `mountPaths` set in the Go source). -/
def liveTrimmed (table : List String) : List String :=
  table.map trimSlashes

/-- The paths `idempotentMount` issues a vault `Mount` call for: each
desired trimmed path, in order, that is not in the trimmed live snapshot
(the loop body `continue`s on the ones already present). -/
def issuedMounts (mounts : List Mount) (live : List String) : List String :=
  (mounts.map mountDesired).filter (fun p => ! live.contains p)

/-- Go: `func (b *Broker) idempotentMount(mounts []*Mount) error` — the
resulting mount table: the snapshot plus one new entry per issued mount. -/
def idempotentMount (mounts : List Mount) (table : List String) : List String :=
  table ++ issuedMounts mounts (liveTrimmed table)

/-- The paths `idempotentUnmount` issues a vault `Unmount` call for: each
desired trimmed path that is present in the trimmed live snapshot. -/
def issuedUnmounts (mounts : List Mount) (live : List String) : List String :=
  (mounts.map mountDesired).filter (fun p => live.contains p)

/-- Go: `func (b *Broker) idempotentUnmount(mounts []*Mount) error` — the
resulting mount table: every table entry whose trimmed path was issued an
unmount is removed. -/
def idempotentUnmount (mounts : List Mount) (table : List String) : List String :=
  table.filter (fun q => ! (issuedUnmounts mounts (liveTrimmed table)).contains (trimSlashes q))

/-! ## Persistence codec (main.go `decodeDetails` / `decodeBindingInfo`)

The broker persists a struct by `json.Marshal`-ing it, then storing the
resulting JSON text as the value of the single key `"json"` in the vault
secret payload. Decoding looks the key up, requires a string, and
`json.Unmarshal`s it. The stdlib codec is modelled at string level for the
flat all-string structs the broker persists: the encoder emits
`\x7b"Field":"value",...\x7d` with Go's default escaping (`"`,
backslash, newline, carriage return, tab by two-character escapes;
other control characters and the HTML characters `<`, `>`, `&` as
`\u00XX`; U+2028 and U+2029 as six-character escapes), and the decoder is a
recursive-descent parser for such objects that assigns parsed fields by
exact field name, later occurrences overwriting earlier ones. -/

/-- Lowercase hex digit for `n < 16` (Go `hex = "0123456789abcdef"`). -/
def hexDigitChar (n : Nat) : Char :=
  if n < 10 then Char.ofNat (48 + n) else Char.ofNat (87 + n)

/-- Parse one hex digit (either case), as `json.Unmarshal` accepts. -/
def parseHex (c : Char) : Option Nat :=
  if 48 ≤ c.toNat ∧ c.toNat ≤ 57 then some (c.toNat - 48)
  else if 97 ≤ c.toNat ∧ c.toNat ≤ 102 then some (c.toNat - 87)
  else if 65 ≤ c.toNat ∧ c.toNat ≤ 70 then some (c.toNat - 55)
  else none

/-- Go `encoding/json`'s escaping of one character inside a string literal
(default encoder, HTML escaping on). -/
def jsonEscapeChar (c : Char) : List Char :=
  if c = quoteC then [bslashC, quoteC]
  else if c = bslashC then [bslashC, bslashC]
  else if c = '\n' then [bslashC, 'n']
  else if c = '\r' then [bslashC, 'r']
  else if c = '\t' then [bslashC, 't']
  else if c.toNat < 32 ∨ c = '<' ∨ c = '>' ∨ c = '&' then
    [bslashC, 'u', '0', '0', hexDigitChar (c.toNat / 16), hexDigitChar (c.toNat % 16)]
  else if c.toNat = 8232 then [bslashC, 'u', '2', '0', '2', '8']
  else if c.toNat = 8233 then [bslashC, 'u', '2', '0', '2', '9']
  else [c]

/-- Escape a character sequence for a JSON string literal. -/
def jsonEscapeList : List Char → List Char
  | [] => []
  | c :: cs => jsonEscapeChar c ++ jsonEscapeList cs

/-- A JSON string literal: quote, escaped content, quote. -/
def renderStringLit (s : String) : List Char :=
  quoteC :: jsonEscapeList s.data ++ [quoteC]

/-- Parse the body of a JSON string literal (the opening quote already
consumed), returning the decoded content and the input after the closing
quote. Handles the escapes `json.Unmarshal` accepts for the characters the
broker's encoder can emit. -/
def parseStrBody : List Char → Option (List Char × List Char)
  | [] => none
  | c :: rest =>
    if c = quoteC then some ([], rest)
    else if c = bslashC then
      match rest with
      | [] => none
      | e :: rest2 =>
        if e = quoteC then (parseStrBody rest2).map (fun p => (quoteC :: p.1, p.2))
        else if e = bslashC then (parseStrBody rest2).map (fun p => (bslashC :: p.1, p.2))
        else if e = '/' then (parseStrBody rest2).map (fun p => ('/' :: p.1, p.2))
        else if e = 'b' then (parseStrBody rest2).map (fun p => (Char.ofNat 8 :: p.1, p.2))
        else if e = 'f' then (parseStrBody rest2).map (fun p => (Char.ofNat 12 :: p.1, p.2))
        else if e = 'n' then (parseStrBody rest2).map (fun p => ('\n' :: p.1, p.2))
        else if e = 'r' then (parseStrBody rest2).map (fun p => ('\r' :: p.1, p.2))
        else if e = 't' then (parseStrBody rest2).map (fun p => ('\t' :: p.1, p.2))
        else if e = 'u' then
          match rest2 with
          | h1 :: h2 :: h3 :: h4 :: rest3 =>
            match parseHex h1, parseHex h2, parseHex h3, parseHex h4 with
            | some a, some b, some c2, some d =>
              (parseStrBody rest3).map
                (fun p => (Char.ofNat (4096 * a + 256 * b + 16 * c2 + d) :: p.1, p.2))
            | _, _, _, _ => none
          | _ => none
        else none
    else (parseStrBody rest).map (fun p => (c :: p.1, p.2))

/-- The opening brace character. -/
def openB : Char := Char.ofNat 123

/-- The closing brace character. -/
def closeB : Char := Char.ofNat 125

/-- One `"key":"value"` member of a marshalled object. -/
def renderField (k v : String) : List Char :=
  renderStringLit k ++ ':' :: renderStringLit v

/-- The members after the first, each preceded by a comma, then the
closing brace. -/
def renderFieldsRest : List (String × String) → List Char
  | [] => [closeB]
  | (k, v) :: rest => ',' :: (renderField k v ++ renderFieldsRest rest)

/-- `json.Marshal` output for a flat object of string fields, in field
order. -/
def renderObj : List (String × String) → List Char
  | [] => [openB, closeB]
  | (k, v) :: rest => openB :: (renderField k v ++ renderFieldsRest rest)

/-- Fuel-indexed member-list parser: positioned at the start of a member
(after `\x7b` or a comma), parses `"key":"value"` members until the
closing brace. -/
def parseFieldsF : Nat → List Char → Option (List (String × String) × List Char)
  | 0, _ => none
  | n + 1, l =>
    match l with
    | [] => none
    | c :: rest =>
      if c = quoteC then
        match parseStrBody rest with
        | none => none
        | some (k, r1) =>
          match r1 with
          | [] => none
          | c2 :: r2 =>
            if c2 = ':' then
              match r2 with
              | [] => none
              | c3 :: r3 =>
                if c3 = quoteC then
                  match parseStrBody r3 with
                  | none => none
                  | some (v, r4) =>
                    match r4 with
                    | [] => none
                    | c4 :: r5 =>
                      if c4 = ',' then
                        (parseFieldsF n r5).map
                          (fun p => ((⟨k⟩, ⟨v⟩) :: p.1, p.2))
                      else if c4 = closeB then some ([(⟨k⟩, ⟨v⟩)], r5)
                      else none
                else none
            else none
      else none

/-- Parse a flat JSON object of string fields, returning the members in
order and the remaining input. -/
def parseObj : List Char → Option (List (String × String) × List Char)
  | [] => none
  | c :: rest =>
    if c = openB then
      match rest with
      | [] => none
      | c2 :: _ =>
        if c2 = closeB then some ([], rest.tail)
        else parseFieldsF rest.length rest
    else none

/-! ## The marshalled structs

`Details` is marshalled with its six exported fields in declaration order;
`bindingInfo` with its five exported fields (the unexported `stopCh`
channel is invisible to `encoding/json` and is not persisted).
`json.Unmarshal` fills a zero struct, assigning each parsed member to the
struct field of that name (unknown members are dropped, later duplicates
overwrite earlier ones). -/

/-- Go: `type bindingInfo struct` (main.go) — the persisted fields only;
the transient `stopCh` channel is not part of the marshalled value. -/
structure bindingInfo where
  Organization : String
  Space : String
  Binding : String
  ClientToken : String
  Accessor : String
deriving DecidableEq, Repr

/-- The members `json.Marshal` emits for a `Details`, in field order. -/
def detailsFields (d : Details) : List (String × String) :=
  [("OrganizationName", d.OrganizationName), ("OrganizationGUID", d.OrganizationGUID),
   ("SpaceName", d.SpaceName), ("SpaceGUID", d.SpaceGUID),
   ("ServiceInstanceName", d.ServiceInstanceName), ("ServiceInstanceGUID", d.ServiceInstanceGUID)]

/-- `json.Marshal` of a `Details` value. -/
def marshalDetails (d : Details) : String :=
  ⟨renderObj (detailsFields d)⟩

/-- The members `json.Marshal` emits for a `bindingInfo`, in field order. -/
def bindingFields (i : bindingInfo) : List (String × String) :=
  [("Organization", i.Organization), ("Space", i.Space), ("Binding", i.Binding),
   ("ClientToken", i.ClientToken), ("Accessor", i.Accessor)]

/-- `json.Marshal` of a `bindingInfo` value. -/
def marshalBindingInfo (i : bindingInfo) : String :=
  ⟨renderObj (bindingFields i)⟩

/-- Assign one parsed member to the matching `Details` field
(`json.Unmarshal` field matching; unknown keys are dropped). -/
def setDetailField (d : Details) (k v : String) : Details :=
  if k = "OrganizationName" then { d with OrganizationName := v }
  else if k = "OrganizationGUID" then { d with OrganizationGUID := v }
  else if k = "SpaceName" then { d with SpaceName := v }
  else if k = "SpaceGUID" then { d with SpaceGUID := v }
  else if k = "ServiceInstanceName" then { d with ServiceInstanceName := v }
  else if k = "ServiceInstanceGUID" then { d with ServiceInstanceGUID := v }
  else d

/-- Fold the parsed members over the zero `Details` value. -/
def detailsOfFields (fs : List (String × String)) : Details :=
  fs.foldl (fun d kv => setDetailField d kv.1 kv.2) ⟨"", "", "", "", "", ""⟩

/-- Assign one parsed member to the matching `bindingInfo` field. -/
def setBindingField (i : bindingInfo) (k v : String) : bindingInfo :=
  if k = "Organization" then { i with Organization := v }
  else if k = "Space" then { i with Space := v }
  else if k = "Binding" then { i with Binding := v }
  else if k = "ClientToken" then { i with ClientToken := v }
  else if k = "Accessor" then { i with Accessor := v }
  else i

/-- Fold the parsed members over the zero `bindingInfo` value. -/
def bindingOfFields (fs : List (String × String)) : bindingInfo :=
  fs.foldl (fun i kv => setBindingField i kv.1 kv.2) ⟨"", "", "", "", ""⟩

/-- `json.Unmarshal` of a `Details` document: parse the object (no
trailing data allowed) and assign the members. -/
def unmarshalDetails (s : String) : Except String Details :=
  match parseObj s.data with
  | some (fs, []) => .ok (detailsOfFields fs)
  | _ => .error "invalid json"

/-- `json.Unmarshal` of a `bindingInfo` document. -/
def unmarshalBindingInfo (s : String) : Except String bindingInfo :=
  match parseObj s.data with
  | some (fs, []) => .ok (bindingOfFields fs)
  | _ => .error "invalid json"

/-! ## The vault secret payload envelope -/

/-- A vault secret value as `map[string]interface` carries it: the broker
only ever cares whether the entry is a string. -/
inductive VaultVal where
  | str (s : String)
  | num (n : Int)
  | null
deriving DecidableEq, Repr

/-- A vault secret's data map. -/
abbrev SecretData := List (String × VaultVal)

/-- Go: `func decodeDetails(m map[string]interface\x7b\x7d) (*Details, error)` —
look up the `"json"` key, require a string, `json.Unmarshal` it. -/
def decodeDetails (m : SecretData) : Except String Details :=
  match m.lookup "json" with
  | none => .error "missing json key"
  | some (VaultVal.str s) => unmarshalDetails s
  | some _ => .error "json data is not string"

/-- Go: `func decodeBindingInfo(m map[string]interface\x7b\x7d) (*bindingInfo, error)`. -/
def decodeBindingInfo (m : SecretData) : Except String bindingInfo :=
  match m.lookup "json" with
  | none => .error "missing json key"
  | some (VaultVal.str s) => unmarshalBindingInfo s
  | some _ => .error "json data is not string"

/-- The payload `Provision` writes at `cf/broker/<instance-guid>`:
`json.Marshal` output under the single `"json"` key. -/
def storeDetails (d : Details) : SecretData :=
  [("json", VaultVal.str (marshalDetails d))]

/-- The payload `Bind` writes at `cf/broker/<instance-guid>/<binding-id>`. -/
def storeBindingInfo (i : bindingInfo) : SecretData :=
  [("json", VaultVal.str (marshalBindingInfo i))]

/-! ## Round-trip lemmas for the codec -/

/-- A lowercase hex digit parses back to its value. -/
theorem parseHex_hexDigitChar (n : Nat) (h : n < 16) :
    parseHex (hexDigitChar n) = some n := by
  interval_cases n <;> decide

/-- The digit zero parses to zero. -/
theorem parseHex_zero : parseHex '0' = some 0 := by decide

/-- The string-body parser undoes the encoder's escape of one character. -/
theorem parseStrBody_esc (c : Char) (rest : List Char) :
    parseStrBody (jsonEscapeChar c ++ rest)
      = (parseStrBody rest).map (fun p => (c :: p.1, p.2)) := by
  unfold jsonEscapeChar
  split_ifs with h1 h2 h3 h4 h5 h6 h7 h8
  · subst h1; rw [List.cons_append, List.cons_append, List.nil_append, parseStrBody.eq_def]
    simp +decide
  · subst h2; rw [List.cons_append, List.cons_append, List.nil_append, parseStrBody.eq_def]
    simp +decide
  · subst h3; rw [List.cons_append, List.cons_append, List.nil_append, parseStrBody.eq_def]
    simp +decide
  · subst h4; rw [List.cons_append, List.cons_append, List.nil_append, parseStrBody.eq_def]
    simp +decide
  · subst h5; rw [List.cons_append, List.cons_append, List.nil_append, parseStrBody.eq_def]
    simp +decide
  · have h256 : c.toNat < 256 := by
      rcases h6 with h | h | h | h
      · omega
      · subst h; decide
      · subst h; decide
      · subst h; decide
    have hdiv : c.toNat / 16 < 16 := by omega
    have hmod : c.toNat % 16 < 16 := by omega
    rw [List.cons_append, List.cons_append, List.cons_append, List.cons_append,
        List.cons_append, List.cons_append, List.nil_append, parseStrBody.eq_def]
    simp +decide [parseHex_zero, parseHex_hexDigitChar _ hdiv, parseHex_hexDigitChar _ hmod]
    rw [show 16 * (c.toNat / 16) + c.toNat % 16 = c.toNat from by omega, Char.ofNat_toNat]
  · rw [List.cons_append, List.cons_append, List.cons_append, List.cons_append,
        List.cons_append, List.cons_append, List.nil_append, parseStrBody.eq_def]
    simp +decide [show parseHex '2' = some 2 from by decide, parseHex_zero,
      show parseHex '8' = some 8 from by decide]
    rw [show (8232 : Nat) = c.toNat from h7.symm, Char.ofNat_toNat]
  · rw [List.cons_append, List.cons_append, List.cons_append, List.cons_append,
        List.cons_append, List.cons_append, List.nil_append, parseStrBody.eq_def]
    simp +decide [show parseHex '2' = some 2 from by decide, parseHex_zero,
      show parseHex '9' = some 9 from by decide]
    rw [show (8233 : Nat) = c.toNat from h8.symm, Char.ofNat_toNat]
  · rw [List.cons_append, List.nil_append, parseStrBody.eq_def]
    simp [h1, h2]

/-- The string-body parser undoes the encoder on a whole escaped content
run, consuming the closing quote. -/
theorem parseStrBody_escList (l : List Char) (rest : List Char) :
    parseStrBody (jsonEscapeList l ++ quoteC :: rest) = some (l, rest) := by
  induction l generalizing rest with
  | nil =>
    rw [jsonEscapeList, List.nil_append, parseStrBody.eq_def]
    simp
  | cons c cs ih =>
    rw [jsonEscapeList, List.append_assoc, parseStrBody_esc, ih]
    rfl

/-- A rendered member tail is strictly longer than its member count (used
to bound the parser fuel). -/
theorem len_renderFieldsRest (fs : List (String × String)) :
    fs.length < (renderFieldsRest fs).length := by
  induction fs with
  | nil => simp [renderFieldsRest]
  | cons f fs ih =>
    cases f
    simp only [renderFieldsRest, List.length_cons, List.length_append]
    omega

/-- The member parser undoes the member renderer, for any sufficient
fuel. -/
theorem parseFieldsF_render (fs : List (String × String)) :
    ∀ (n : Nat) (k v : String) (rest : List Char), fs.length < n →
    parseFieldsF n (renderField k v ++ (renderFieldsRest fs ++ rest))
      = some ((k, v) :: fs, rest) := by
  induction fs with
  | nil =>
    intro n k v rest hn
    match n, hn with
    | m + 1, _ =>
      simp +decide [parseFieldsF, renderField, renderStringLit, renderFieldsRest,
        parseStrBody_escList]
  | cons f2 fs2 ih =>
    intro n k v rest hn
    match n, hn with
    | m + 1, hn =>
      have h2 : fs2.length < m := by simp at hn; omega
      simp +decide [parseFieldsF, renderField, renderStringLit, renderFieldsRest,
        parseStrBody_escList]
      have h3 := ih m f2.1 f2.2 rest h2
      simp [renderField, renderStringLit] at h3
      simpa using h3

/-- The object parser undoes the object renderer, leaving trailing input
untouched. -/
theorem parseObj_render (fs : List (String × String)) (rest : List Char) :
    parseObj (renderObj fs ++ rest) = some (fs, rest) := by
  cases fs with
  | nil => simp +decide [renderObj, parseObj]
  | cons f fs2 =>
    rw [renderObj]
    rw [List.cons_append, parseObj.eq_def]
    have hlen : fs2.length < (renderField f.1 f.2 ++ (renderFieldsRest fs2 ++ rest)).length := by
      have h0 := len_renderFieldsRest fs2
      simp only [List.length_append]
      omega
    have h4 := parseFieldsF_render fs2
      ((renderField f.1 f.2 ++ (renderFieldsRest fs2 ++ rest)).length) f.1 f.2 rest hlen
    simp +decide [renderField, renderStringLit] at h4 ⊢
    exact h4

/-- `json.Unmarshal` undoes `json.Marshal` on `Details`. -/
theorem unmarshal_marshal_details (d : Details) :
    unmarshalDetails (marshalDetails d) = .ok d := by
  rw [unmarshalDetails, marshalDetails]
  have h := parseObj_render (detailsFields d) []
  rw [List.append_nil] at h
  simp only [h]
  cases d
  simp +decide [detailsOfFields, detailsFields, setDetailField]

/-- `json.Unmarshal` undoes `json.Marshal` on `bindingInfo`. -/
theorem unmarshal_marshal_binding (i : bindingInfo) :
    unmarshalBindingInfo (marshalBindingInfo i) = .ok i := by
  rw [unmarshalBindingInfo, marshalBindingInfo]
  have h := parseObj_render (bindingFields i) []
  rw [List.append_nil] at h
  simp only [h]
  cases i
  simp +decide [bindingOfFields, bindingFields, setBindingField]

/-- Decoding the stored envelope of a `Details` returns the original. -/
theorem decode_store_details (d : Details) :
    decodeDetails (storeDetails d) = .ok d := by
  simp +decide [decodeDetails, storeDetails, List.lookup, unmarshal_marshal_details]

/-- Decoding the stored envelope of a `bindingInfo` returns the
original. -/
theorem decode_store_binding (i : bindingInfo) :
    decodeBindingInfo (storeBindingInfo i) = .ok i := by
  simp +decide [decodeBindingInfo, storeBindingInfo, List.lookup, unmarshal_marshal_binding]

/-! ## `Broker.Bind` (main.go)

Bind runs against the vault; the outcomes of its three vault calls
(token create-with-role, the persistence write, the accessor revoke) are
supplied as an environment. Indexes and the persisted tree are explicit
state; spawned renewers, revoke attempts and the revoke-failure warning
are recorded as effects. -/

/-- The `Auth` block of a vault token-create response. -/
structure VaultAuth where
  ClientToken : String
  Accessor : String
deriving DecidableEq, Repr

/-- A vault token-create response: the `Auth` pointer may be nil. -/
structure TokenSecret where
  Auth : Option VaultAuth
deriving DecidableEq, Repr

/-- The error kinds `Bind` can return, in source order of occurrence. -/
inductive BindError where
  | tokenCreate (msg : String)
  | noAuth
  | unknownInstance
  | persist (msg : String)
deriving DecidableEq, Repr

/-- Outcomes of the vault calls `Bind` makes, in call order. -/
structure BindEnv where
  tokenCreate : Except String TokenSecret
  writeBinding : Except String Unit
  revokeAccessor : Except String Unit

/-- The broker's in-memory indexes plus the persisted tree
(`cf/broker/...` paths to secret payloads). Assoc lists model the Go
maps; an insert conses, so `lookup` sees the newest entry. -/
structure BrokerIndexes where
  instances : List (String × Details)
  binds : List (String × bindingInfo)
  store : List (String × SecretData)

/-- Observable side effects of one `Bind` call. -/
structure BindEffects where
  tokenCreated : Bool
  revokeAttempts : List String
  revokeWarnings : List String
  renewersSpawned : List (String × String)
deriving DecidableEq, Repr

/-- The credentials map `Bind` returns on success. -/
structure BindingCredentials where
  address : String
  authAccessor : String
  authToken : String
  backendGeneric : String
  backendTransit : String
  sharedOrganization : String
  sharedSpace : String
deriving DecidableEq, Repr

/-- Go: `func (b *Broker) Bind(...)` — create a token with role
`cf-<instanceID>`, look the instance up, persist the binding info at
`cf/broker/<instanceID>/<bindingID>` (best-effort revoking the accessor
and warning if the write fails), spawn a renewer, insert into the binds
index, and return the credentials. -/
def Bind (env : BindEnv) (vaultAdvertiseAddr : String) (st : BrokerIndexes)
    (instanceID bindingID : String) :
    Except BindError BindingCredentials × BrokerIndexes × BindEffects :=
  match env.tokenCreate with
  | .error e => (.error (.tokenCreate e), st, ⟨false, [], [], []⟩)
  | .ok secret =>
    match secret.Auth with
    | none => (.error .noAuth, st, ⟨true, [], [], []⟩)
    | some auth =>
      match st.instances.lookup instanceID with
      | none => (.error .unknownInstance, st, ⟨true, [], [], []⟩)
      | some inst =>
        let info : bindingInfo :=
          ⟨inst.OrganizationGUID, inst.SpaceGUID, bindingID, auth.ClientToken, auth.Accessor⟩
        let path := "cf/broker/" ++ instanceID ++ "/" ++ bindingID
        match env.writeBinding with
        | .error e =>
          match env.revokeAccessor with
          | .ok _ => (.error (.persist e), st, ⟨true, [auth.Accessor], [], []⟩)
          | .error _ => (.error (.persist e), st,
              ⟨true, [auth.Accessor], ["failed to revoke accessor " ++ auth.Accessor], []⟩)
        | .ok _ =>
          (.ok ⟨vaultAdvertiseAddr, auth.Accessor, auth.ClientToken,
              "cf/" ++ instanceID ++ "/secret", "cf/" ++ instanceID ++ "/transit",
              "cf/" ++ inst.OrganizationGUID ++ "/secret",
              "cf/" ++ inst.SpaceGUID ++ "/secret"⟩,
            { st with
                store := (path, storeBindingInfo info) :: st.store,
                binds := (bindingID, info) :: st.binds },
            ⟨true, [], [], [(auth.ClientToken, auth.Accessor)]⟩)

/-! ## `Broker.Deprovision` mount set (main.go) -/

/-- The unmount set `Deprovision` computes: the two guid mounts always,
plus — whenever the instance is in the in-memory cache — two more mounts
carrying the cached `ServiceInstanceName` (which may be empty). -/
def deprovisionMounts (cached : Option Details) (instanceID : String) : List Mount :=
  let mounts : List Mount := [⟨"", "", instanceID, KV⟩, ⟨"", "", instanceID, Transit⟩]
  match cached with
  | none => mounts
  | some inst => mounts ++
      [⟨"", inst.ServiceInstanceName, instanceID, KV⟩,
       ⟨"", inst.ServiceInstanceName, instanceID, Transit⟩]

/-! ## `Broker.Start` recovery walk (main.go)

`Start` lists `cf/broker/`, and for each instance id (trimmed of `/`)
reads and decodes the persisted instance, then lists, reads and decodes
each of its bindings, spawning a renewer per binding. A nil or empty
secret is logged and skipped; every error — including a decode error — is
wrapped and returned, aborting the walk. The vault store is the path to
payload map; the directory listings are supplied as inputs. -/

/-- The persisted tree as `Logical().Read` sees it. -/
abbrev VaultStore := List (String × SecretData)

/-- Read a path from the persisted tree. -/
def storeRead (store : VaultStore) (path : String) : Option SecretData :=
  store.lookup path

/-- The state `Start` rebuilds: both indexes plus one renewer task per
restored binding. -/
structure RestoreState where
  instances : List (String × Details)
  binds : List (String × bindingInfo)
  renewers : List (String × String)
deriving DecidableEq, Repr

/-- Go: `func (b *Broker) restoreInstance(instanceID string) error` —
nil/empty secret is skipped with a log line; a decode failure is returned
as an error. -/
def restoreInstance (store : VaultStore) (st : RestoreState) (instanceID : String) :
    Except String RestoreState :=
  match storeRead store ("cf/broker/" ++ instanceID) with
  | none => .ok st
  | some data =>
    if data.isEmpty then .ok st
    else
      match decodeDetails data with
      | .error e =>
        .error ("failed to decode instance info for " ++ ("cf/broker/" ++ instanceID) ++ ": " ++ e)
      | .ok info => .ok { st with instances := (instanceID, info) :: st.instances }

/-- Go: `func (b *Broker) restoreBind(instanceID, bindingID string) error` —
nil/empty secret skipped; decode failure returned; otherwise a stop
channel is made, a renewer spawned, and the bind indexed. -/
def restoreBind (store : VaultStore) (st : RestoreState) (instanceID bindingID : String) :
    Except String RestoreState :=
  match storeRead store ("cf/broker/" ++ instanceID ++ "/" ++ bindingID) with
  | none => .ok st
  | some data =>
    if data.isEmpty then .ok st
    else
      match decodeBindingInfo data with
      | .error e =>
        .error ("failed to decode binding info for "
          ++ ("cf/broker/" ++ instanceID ++ "/" ++ bindingID) ++ ": " ++ e)
      | .ok info => .ok { st with
          binds := (bindingID, info) :: st.binds,
          renewers := (info.ClientToken, info.Accessor) :: st.renewers }

/-- The inner loop of `Start` over one instance's binding ids; each error
is wrapped and aborts. -/
def restoreBindList (store : VaultStore) (instanceID : String) :
    List String → RestoreState → Except String RestoreState
  | [], st => .ok st
  | b :: rest, st =>
    match restoreBind store st instanceID (trimSlashes b) with
    | .error e => .error ("failed to restore bind " ++ trimSlashes b ++ ": " ++ e)
    | .ok st2 => restoreBindList store instanceID rest st2

/-- The recovery walk of `Start` over the listed instance ids: restore
each instance, then each of its listed bindings; any error aborts the
walk and is returned from `Start`. -/
def startRestore (store : VaultStore) (listBinds : String → List String) :
    List String → RestoreState → Except String RestoreState
  | [], st => .ok st
  | i :: rest, st =>
    match restoreInstance store st (trimSlashes i) with
    | .error e => .error ("failed to restore instance data for " ++ trimSlashes i ++ ": " ++ e)
    | .ok st2 =>
      match restoreBindList store (trimSlashes i) (listBinds (trimSlashes i)) st2 with
      | .error e => .error e
      | .ok st3 => startRestore store listBinds rest st3

/-! ## String and list helper lemmas -/

/-- Strings with equal character data are equal. -/
theorem string_data_inj {a b : String} (h : a.data = b.data) : a = b := by
  cases a; cases b; exact congrArg String.mk (by simpa using h)

/-- For a non-absolute mount, the path is prefix, base, slash, engine
suffix. -/
theorem Mount.Path_eq_base (m : Mount) (h : m.AbsolutePath = "") :
    m.Path = "/cf/" ++ m.base ++ "/" ++ m.mtype.PathType := by
  rw [Mount.Path, Mount.base]
  simp [h]

/-- `dropWhile` never lengthens a list. -/
theorem length_dropWhile_le (p : Char → Bool) (t : List Char) :
    (t.dropWhile p).length ≤ t.length := by
  induction t with
  | nil => simp
  | cons c cs ih =>
    rw [List.dropWhile_cons]
    split
    · simp only [List.length_cons]
      omega
    · simp

/-- Dropping trailing characters preserves a clean front: if `A` starts
with a non-`p` character (is its own `dropWhile p`), so does `A` with its
trailing `p`-run removed. -/
theorem clean_front_trimR (p : Char → Bool) (A : List Char) (hA : A.dropWhile p = A) :
    ((A.reverse.dropWhile p).reverse).dropWhile p = (A.reverse.dropWhile p).reverse := by
  cases hD : A.reverse.dropWhile p with
  | nil => simp
  | cons y ys =>
    rcases List.dropWhile_suffix p (l := A.reverse) with ⟨pre, hpre⟩
    rw [hD] at hpre
    have hrev := congrArg List.reverse hpre
    rw [List.reverse_append, List.reverse_reverse] at hrev
    cases A with
    | nil => simp at hD
    | cons a t =>
      have hpa : p a = false := by
        by_cases hp : p a
        · rw [List.dropWhile_cons, if_pos hp] at hA
          have hlen := congrArg List.length hA
          have hle := length_dropWhile_le p t
          simp at hlen
          omega
        · simpa using hp
      rcases hL : (y :: ys).reverse with _ | ⟨b, bs⟩
      · simp at hL
      · rw [hL, List.cons_append] at hrev
        have hb : b = a := by injection hrev
        rw [List.dropWhile_cons, hb, hpa]
        simp

/-- Go's `strings.Trim(s, "/")` is idempotent. -/
theorem trimSlashes_trimSlashes (s : String) :
    trimSlashes (trimSlashes s) = trimSlashes s := by
  unfold trimSlashes
  apply congrArg String.mk
  have h1 : ((((s.data.dropWhile fun c => c = '/').reverse.dropWhile
      fun c => c = '/').reverse).dropWhile fun c => c = '/')
      = ((s.data.dropWhile fun c => c = '/').reverse.dropWhile fun c => c = '/').reverse :=
    clean_front_trimR _ _ (List.dropWhile_idempotent _ _)
  rw [h1, List.reverse_reverse, List.dropWhile_idempotent]

/-- The desired path of a mount is already slash-trimmed. -/
theorem trim_mountDesired (m : Mount) : trimSlashes (mountDesired m) = mountDesired m :=
  trimSlashes_trimSlashes _

/-- `idempotentMount` issues exactly the desired trimmed paths absent
from the trimmed live snapshot. -/
theorem mem_issuedMounts (ms : List Mount) (live : List String) (p : String) :
    p ∈ issuedMounts ms live ↔ p ∈ ms.map mountDesired ∧ ¬ live.contains p := by
  simp [issuedMounts, List.mem_filter]

/-- `idempotentUnmount` issues exactly the desired trimmed paths present
in the trimmed live snapshot. -/
theorem mem_issuedUnmounts (ms : List Mount) (live : List String) (p : String) :
    p ∈ issuedUnmounts ms live ↔ p ∈ ms.map mountDesired ∧ live.contains p := by
  simp [issuedUnmounts, List.mem_filter, List.elem_iff]

/-- A second run of `mount(S)` issues nothing and leaves the table of the
first run unchanged. -/
theorem idempotentMount_idem (ms : List Mount) (t : List String) :
    idempotentMount ms (idempotentMount ms t) = idempotentMount ms t := by
  have hnil : issuedMounts ms (liveTrimmed (idempotentMount ms t)) = [] := by
    rw [issuedMounts, List.filter_eq_nil_iff]
    intro p hp
    rcases List.mem_map.mp hp with ⟨m, hm, rfl⟩
    simp only [Bool.not_eq_true', Bool.not_eq_false]
    rw [List.elem_iff]
    rw [idempotentMount, liveTrimmed, List.map_append]
    by_cases hc : (liveTrimmed t).contains (mountDesired m)
    · exact List.mem_append_left _ (by rw [← liveTrimmed]; exact List.elem_iff.mp hc)
    · refine List.mem_append_right _ ?_
      have hin : mountDesired m ∈ issuedMounts ms (liveTrimmed t) :=
        (mem_issuedMounts ms (liveTrimmed t) _).mpr ⟨hp, by simpa using hc⟩
      have h2 : trimSlashes (mountDesired m) = mountDesired m := trim_mountDesired m
      exact h2 ▸ List.mem_map_of_mem trimSlashes hin
  rw [idempotentMount, hnil, List.append_nil]

/-- A second run of `unmount(S)` issues nothing and leaves the table of
the first run unchanged. -/
theorem idempotentUnmount_idem (ms : List Mount) (t : List String) :
    idempotentUnmount ms (idempotentUnmount ms t) = idempotentUnmount ms t := by
  have hnil : issuedUnmounts ms (liveTrimmed (idempotentUnmount ms t)) = [] := by
    rw [issuedUnmounts, List.filter_eq_nil_iff]
    intro p hp
    rcases List.mem_map.mp hp with ⟨m, hm, rfl⟩
    rw [Bool.not_eq_true, Bool.eq_false_iff]
    intro hcon
    have hmem := List.elem_iff.mp hcon
    rcases List.mem_map.mp hmem with ⟨q, hq, hqeq⟩
    rw [idempotentUnmount] at hq
    have hq2 := List.mem_filter.mp hq
    have hql : trimSlashes q ∈ liveTrimmed t := List.mem_map_of_mem _ hq2.1
    have hissued : trimSlashes q ∈ issuedUnmounts ms (liveTrimmed t) := by
      rw [hqeq]
      exact (mem_issuedUnmounts _ _ _).mpr ⟨hp, List.elem_iff.mpr (hqeq ▸ hql)⟩
    have hq3 := hq2.2
    rw [Bool.not_eq_true', Bool.eq_false_iff] at hq3
    exact hq3 (List.elem_iff.mpr hissued)
  rw [idempotentUnmount, hnil]
  simp

/-! ## Claim theorems -/

/-- C3: `Mount.Path` is total and deterministic (a Lean function), and
resolves as: a non-empty absolute path gives `/cf/` plus that path;
otherwise `/cf/<base>/<suffix>` where the base is the guid when the name
is empty and `name-guid` otherwise, and the suffix is `secret` for the KV
kind and `transit` for the Transit kind; in particular the three concrete
examples of the claim hold. -/
theorem claim_C3_mount_path_rules :
    (∀ m : Mount,
      m.Path =
        if m.AbsolutePath ≠ "" then "/cf/" ++ m.AbsolutePath
        else "/cf/" ++ (if m.Name = "" then m.GUID else m.Name ++ "-" ++ m.GUID)
          ++ "/" ++ m.mtype.PathType)
    ∧ SecretEngineType.PathType KV = "secret"
    ∧ SecretEngineType.PathType Transit = "transit"
    ∧ Mount.Path ⟨"broker", "", "", KV⟩ = "/cf/broker"
    ∧ Mount.Path ⟨"", "", "g", KV⟩ = "/cf/g/secret"
    ∧ Mount.Path ⟨"", "n", "g", Transit⟩ = "/cf/n-g/transit" := by
  refine ⟨fun m => ?_, by decide, by decide, by decide, by decide, by decide⟩
  rw [Mount.Path]
  by_cases h : m.AbsolutePath = "" <;> by_cases h2 : m.Name = "" <;> simp [h, h2]

/-- C4: running `mount(S)` (resp. `unmount(S)`) twice from any starting
mount table yields the same table as running it once, and the issued
operations are exactly the desired slash-trimmed paths absent from
(resp. present in) the slash-trimmed live snapshot. -/
theorem claim_C4_mount_idempotence :
    (∀ (ms : List Mount) (t : List String),
       idempotentMount ms (idempotentMount ms t) = idempotentMount ms t)
    ∧ (∀ (ms : List Mount) (t : List String),
       idempotentUnmount ms (idempotentUnmount ms t) = idempotentUnmount ms t)
    ∧ (∀ (ms : List Mount) (t : List String) (p : String),
       p ∈ issuedMounts ms (liveTrimmed t)
         ↔ p ∈ ms.map mountDesired ∧ ¬ (liveTrimmed t).contains p)
    ∧ (∀ (ms : List Mount) (t : List String) (p : String),
       p ∈ issuedUnmounts ms (liveTrimmed t)
         ↔ p ∈ ms.map mountDesired ∧ (liveTrimmed t).contains p) :=
  ⟨idempotentMount_idem, idempotentUnmount_idem,
   fun ms t p => mem_issuedMounts ms (liveTrimmed t) p,
   fun ms t p => mem_issuedUnmounts ms (liveTrimmed t) p⟩

/-- C5: encoding an `InstanceDetails` or a `BindingInfo` as a JSON string
under the single `"json"` key and decoding it with
`decodeDetails` / `decodeBindingInfo` returns a value equal to the
original on all persisted fields (the transient stop channel is not part
of the persisted value). -/
theorem claim_C5_codec_round_trip :
    (∀ d : Details, decodeDetails (storeDetails d) = .ok d)
    ∧ (∀ i : bindingInfo, decodeBindingInfo (storeBindingInfo i) = .ok i) :=
  ⟨decode_store_details, decode_store_binding⟩

/-- C7 counterexample: two non-absolute mounts that differ in both name
and guid (so the claim's "differ in (effective-name, guid, kind)"
premise holds) produce the same path — `Mount.Path` is not injective in
the claimed sense. -/
theorem claim_C7_counterexample :
    Mount.Path ⟨"", "a-b", "c", KV⟩ = Mount.Path ⟨"", "a", "b-c", KV⟩
    ∧ (Mount.mk "" "a-b" "c" KV).Name ≠ (Mount.mk "" "a" "b-c" KV).Name
    ∧ (Mount.mk "" "a-b" "c" KV).GUID ≠ (Mount.mk "" "a" "b-c" KV).GUID
    ∧ (Mount.mk "" "a-b" "c" KV).AbsolutePath = ""
    ∧ (Mount.mk "" "a" "b-c" KV).AbsolutePath = "" :=
  ⟨by decide, by decide, by decide, by decide, by decide⟩

/-- C7 amended: `Mount.Path` separates mounts at the granularity of the
rendered base string, not of the (name, guid) pair: two absolute mounts
with different absolute paths never collide; two non-absolute mounts of
the same engine kind with different base strings (guid, or name-guid)
never collide; and two non-absolute mounts of the two distinct enumerated
kinds never collide. -/
theorem claim_C7_amended :
    (∀ m1 m2 : Mount, m1.AbsolutePath ≠ "" → m2.AbsolutePath ≠ "" →
       m1.AbsolutePath ≠ m2.AbsolutePath → m1.Path ≠ m2.Path)
    ∧ (∀ m1 m2 : Mount, m1.AbsolutePath = "" → m2.AbsolutePath = "" →
       m1.mtype = m2.mtype → m1.base ≠ m2.base → m1.Path ≠ m2.Path)
    ∧ (∀ m1 m2 : Mount, m1.AbsolutePath = "" → m2.AbsolutePath = "" →
       m1.mtype = KV → m2.mtype = Transit → m1.Path ≠ m2.Path) := by
  refine ⟨?_, ?_, ?_⟩
  · intro m1 m2 h1 h2 hne heq
    rw [Mount.Path, Mount.Path, if_pos h1, if_pos h2] at heq
    have hd := congrArg String.data heq
    rw [String.data_append, String.data_append] at hd
    exact hne (string_data_inj (List.append_cancel_left hd))
  · intro m1 m2 h1 h2 ht hb heq
    rw [Mount.Path_eq_base _ h1, Mount.Path_eq_base _ h2, ht] at heq
    have hd := congrArg String.data heq
    simp only [String.data_append, List.append_assoc] at hd
    have hc := List.append_cancel_left hd
    have hc2 := List.append_cancel_right hc
    exact hb (string_data_inj hc2)
  · intro m1 m2 h1 h2 t1 t2 heq
    rw [Mount.Path_eq_base _ h1, Mount.Path_eq_base _ h2, t1, t2,
      show SecretEngineType.PathType KV = "secret" from rfl,
      show SecretEngineType.PathType Transit = "transit" from rfl] at heq
    have hd := congrArg String.data heq
    simp only [String.data_append, List.append_assoc] at hd
    have hc := List.append_cancel_left hd
    have h1r := congrArg List.reverse hc
    rw [List.reverse_append, List.reverse_append, List.reverse_append,
      List.reverse_append] at h1r
    simp +decide at h1r

/-- C7 witness: the amended separation applied at concrete mounts —
distinct absolute paths, distinct bases of equal kind, and distinct
kinds all give distinct paths. -/
theorem claim_C7_witness :
    Mount.Path ⟨"broker", "", "", KV⟩ ≠ Mount.Path ⟨"other", "", "", KV⟩
    ∧ Mount.Path ⟨"", "a", "g", KV⟩ ≠ Mount.Path ⟨"", "b", "g", KV⟩
    ∧ Mount.Path ⟨"", "", "g", KV⟩ ≠ Mount.Path ⟨"", "", "g", Transit⟩ :=
  ⟨claim_C7_amended.1 _ _ (by decide) (by decide) (by decide),
   claim_C7_amended.2.1 _ _ (by decide) (by decide) (by decide) (by decide),
   claim_C7_amended.2.2 _ _ (by decide) (by decide) (by decide) (by decide)⟩

/-- C8: the unmount set `Deprovision` computes always contains the two
guid mounts (instance KV and instance Transit), and it contains named
(non-empty-name) mounts for the instance guid exactly when the instance
is in the in-memory cache with a non-empty service-instance name — and
then those are the cached name's KV and Transit mounts. -/
theorem claim_C8_deprovision_mounts : ∀ (cached : Option Details) (iid : String),
    (Mount.mk "" "" iid KV ∈ deprovisionMounts cached iid
      ∧ Mount.mk "" "" iid Transit ∈ deprovisionMounts cached iid)
    ∧ ((∃ d, cached = some d ∧ d.ServiceInstanceName ≠ ""
          ∧ Mount.mk "" d.ServiceInstanceName iid KV ∈ deprovisionMounts cached iid
          ∧ Mount.mk "" d.ServiceInstanceName iid Transit ∈ deprovisionMounts cached iid)
        ↔ (∃ d, cached = some d ∧ d.ServiceInstanceName ≠ ""))
    ∧ ((∃ nm, nm ≠ "" ∧ Mount.mk "" nm iid KV ∈ deprovisionMounts cached iid)
        ↔ (∃ d, cached = some d ∧ d.ServiceInstanceName ≠ "")) := by
  intro cached iid
  cases cached with
  | none =>
    refine ⟨⟨by simp [deprovisionMounts], by simp [deprovisionMounts]⟩, ?_, ?_⟩
    · constructor
      · rintro ⟨d, hd, _⟩
        simp at hd
      · rintro ⟨d, hd, _⟩
        simp at hd
    · constructor
      · rintro ⟨nm, hnm, hmem⟩
        simp +decide [deprovisionMounts] at hmem
        exact absurd hmem hnm
      · rintro ⟨d, hd, _⟩
        simp at hd
  | some d =>
    refine ⟨⟨by simp [deprovisionMounts], by simp [deprovisionMounts]⟩, ?_, ?_⟩
    · constructor
      · rintro ⟨d2, hd2, hne, _, _⟩
        exact ⟨d2, hd2, hne⟩
      · rintro ⟨d2, hd2, hne⟩
        rw [Option.some.injEq] at hd2
        subst hd2
        exact ⟨d, rfl, hne, by simp [deprovisionMounts], by simp [deprovisionMounts]⟩
    · constructor
      · rintro ⟨nm, hnm, hmem⟩
        simp +decide [deprovisionMounts] at hmem
        rcases hmem with h | h
        · exact absurd h hnm
        · exact ⟨d, rfl, fun hc => hnm (h.trans hc)⟩
      · rintro ⟨d2, hd2, hne⟩
        rw [Option.some.injEq] at hd2
        subst hd2
        exact ⟨d.ServiceInstanceName, hne, by simp [deprovisionMounts]⟩

/-- The without-names policy document exactly as claim C2 describes it:
`list` on `cf/<org-guid>`, `cf/<space-guid>`, `cf/<instance-guid>`;
`create,read,update,delete,list` on `cf/<space-guid>/*` and
`cf/<instance-guid>/*`; `read,list` (and nothing more) on
`cf/<org-guid>/*` — the identifiers appearing literally, blocks laid out
in template order. -/
def withoutNamesClaimDoc (o s i : String) : String :=
  "\n" ++ policyBlock ("cf/" ++ i) capsL "  " ++ "\n"
  ++ policyBlock ("cf/" ++ i ++ "/*") capsCRUDL "\t" ++ "\n"
  ++ policyBlock ("cf/" ++ s) capsL "  " ++ "\n"
  ++ policyBlock ("cf/" ++ s ++ "/*") capsCRUDL "  " ++ "\n"
  ++ policyBlock ("cf/" ++ o) capsL "  " ++ "\n"
  ++ policyBlock ("cf/" ++ o ++ "/*") capsRL "  "

/-- Claim C2, amended: when at least one of the three names is empty,
`GeneratePolicy` renders the without-names template, and — provided the
guids contain no characters the HTML escaper rewrites — the rendered
document grants exactly the capability sets of the claim on the literal
guid paths. -/
theorem claim_C2_amended (d : Details)
    (hempty : d.OrganizationName = "" ∨ d.SpaceName = "" ∨ d.ServiceInstanceName = "")
    (ho : htmlEscape d.OrganizationGUID = d.OrganizationGUID)
    (hs : htmlEscape d.SpaceGUID = d.SpaceGUID)
    (hi : htmlEscape d.ServiceInstanceGUID = d.ServiceInstanceGUID) :
    GeneratePolicy d
      = withoutNamesClaimDoc d.OrganizationGUID d.SpaceGUID d.ServiceInstanceGUID := by
  have hnp : d.NamesPopulated = false := by
    rw [Details.NamesPopulated]
    rcases hempty with h | h | h <;> simp [h]
  rw [GeneratePolicy, hnp]
  simp only [Bool.not_false, if_true]
  rw [renderWithoutNames, withoutNamesClaimDoc, ho, hs, hi]

/-- A `Details` with empty names and escape-free guids. -/
def c2WitnessDetails : Details := ⟨"", "og", "", "sg", "", "ig"⟩

set_option maxRecDepth 10000 in
/-- Claim C2 witness: the amended statement at a concrete empty-name
`Details` with plain guids. -/
theorem claim_C2_witness :
    GeneratePolicy c2WitnessDetails = withoutNamesClaimDoc "og" "sg" "ig" :=
  claim_C2_amended c2WitnessDetails (Or.inl rfl) (by decide) (by decide) (by decide)

/-- A `Details` with empty names whose organization guid contains an
ampersand. -/
def c2CounterDetails : Details := ⟨"", "a&b", "", "sg", "", "ig"⟩

set_option maxRecDepth 100000 in
/-- Claim C2 counterexample: for the org guid `a&b` the rendered document
is not the claimed document over the literal guids — it contains the
HTML-escaped `cf/a&amp;b` and no literal `cf/a&b` at all. -/
theorem claim_C2_counterexample :
    GeneratePolicy c2CounterDetails ≠ withoutNamesClaimDoc "a&b" "sg" "ig"
    ∧ containsSub (GeneratePolicy c2CounterDetails) "cf/a&amp;b" = true
    ∧ containsSub (GeneratePolicy c2CounterDetails) "cf/a&b" = false :=
  ⟨by decide, by decide, by decide⟩

/-- A fully named `Details` whose organization name contains an
ampersand. -/
def c9Details : Details := ⟨"a&b", "og", "sn", "sg", "inm", "ig"⟩

set_option maxRecDepth 100000 in
/-- Claim C9: with all three names non-empty and an HTML-special
character in the organization name, the renderer (backed by the
HTML-escaping template engine) emits the escaped form of the name and no
literal `cf/<name>-<guid>` block. -/
theorem claim_C9_html_escaping :
    c9Details.NamesPopulated = true
    ∧ containsSub (GeneratePolicy c9Details) "cf/a&amp;b-og" = true
    ∧ containsSub (GeneratePolicy c9Details) "cf/a&b-og" = false :=
  ⟨by decide, by decide, by decide⟩

/-- Claim C6: when the persistence write of `Bind` fails after a token
has been issued, `Bind` attempts to revoke the just-issued accessor
(warning if that revocation itself fails), returns the persistence error,
leaves the binds index and the persisted tree unchanged, and spawns no
renewer. -/
theorem claim_C6_bind_persist_failure
    (env : BindEnv) (addr : String) (st : BrokerIndexes) (iid bid : String)
    (secret : TokenSecret) (auth : VaultAuth) (inst : Details) (e : String)
    (hTok : env.tokenCreate = .ok secret) (hAuth : secret.Auth = some auth)
    (hInst : st.instances.lookup iid = some inst)
    (hWrite : env.writeBinding = .error e) :
    (Bind env addr st iid bid).1 = .error (.persist e)
    ∧ (Bind env addr st iid bid).2.1.binds = st.binds
    ∧ (Bind env addr st iid bid).2.1.store = st.store
    ∧ (Bind env addr st iid bid).2.2.revokeAttempts = [auth.Accessor]
    ∧ (Bind env addr st iid bid).2.2.renewersSpawned = []
    ∧ (∀ msg, env.revokeAccessor = .error msg →
        (Bind env addr st iid bid).2.2.revokeWarnings ≠ []) := by
  cases hr : env.revokeAccessor <;>
    simp [Bind, hTok, hAuth, hInst, hWrite, hr]

/-- A cached instance for the C6 witness. -/
def c6Inst : Details := ⟨"", "og", "", "sg", "", "i1"⟩

/-- An environment whose token create succeeds and whose persistence
write and accessor revoke both fail. -/
def c6Env : BindEnv :=
  ⟨.ok ⟨some ⟨"tok", "acc"⟩⟩, .error "disk full", .error "revoke refused"⟩

/-- Indexes holding the single instance `i1`. -/
def c6State : BrokerIndexes := ⟨[("i1", c6Inst)], [], []⟩

/-- Claim C6 witness: the persistence-failure contract at a concrete
environment and state. -/
theorem claim_C6_witness :
    (Bind c6Env "addr" c6State "i1" "b1").1 = .error (.persist "disk full")
    ∧ (Bind c6Env "addr" c6State "i1" "b1").2.1.binds = c6State.binds
    ∧ (Bind c6Env "addr" c6State "i1" "b1").2.1.store = c6State.store
    ∧ (Bind c6Env "addr" c6State "i1" "b1").2.2.revokeAttempts = ["acc"]
    ∧ (Bind c6Env "addr" c6State "i1" "b1").2.2.renewersSpawned = []
    ∧ (∀ msg, c6Env.revokeAccessor = .error msg →
        (Bind c6Env "addr" c6State "i1" "b1").2.2.revokeWarnings ≠ []) :=
  claim_C6_bind_persist_failure c6Env "addr" c6State "i1" "b1"
    ⟨some ⟨"tok", "acc"⟩⟩ ⟨"tok", "acc"⟩ c6Inst "disk full" rfl rfl (by decide) rfl

/-- Claim C10: `Bind` creates the vault token before consulting the
instances index, so an unknown instance guid yields the unknown-instance
error after the token has been created; the token and accessor are not
revoked, no renewer is spawned, and the indexes and persisted tree are
unchanged. -/
theorem claim_C10_bind_unknown_instance
    (env : BindEnv) (addr : String) (st : BrokerIndexes) (iid bid : String)
    (secret : TokenSecret) (auth : VaultAuth)
    (hTok : env.tokenCreate = .ok secret) (hAuth : secret.Auth = some auth)
    (hInst : st.instances.lookup iid = none) :
    (Bind env addr st iid bid).1 = .error .unknownInstance
    ∧ (Bind env addr st iid bid).2.1 = st
    ∧ (Bind env addr st iid bid).2.2.tokenCreated = true
    ∧ (Bind env addr st iid bid).2.2.revokeAttempts = []
    ∧ (Bind env addr st iid bid).2.2.revokeWarnings = []
    ∧ (Bind env addr st iid bid).2.2.renewersSpawned = [] := by
  simp [Bind, hTok, hAuth, hInst]

/-- An environment whose vault calls all succeed. -/
def c10Env : BindEnv := ⟨.ok ⟨some ⟨"tok", "acc"⟩⟩, .ok (), .ok ()⟩

/-- Empty broker indexes: no instance is known. -/
def c10State : BrokerIndexes := ⟨[], [], []⟩

/-- Claim C10 witness: binding against an unknown instance at a concrete
environment and state. -/
theorem claim_C10_witness :
    (Bind c10Env "addr" c10State "iX" "b1").1 = .error .unknownInstance
    ∧ (Bind c10Env "addr" c10State "iX" "b1").2.1 = c10State
    ∧ (Bind c10Env "addr" c10State "iX" "b1").2.2.tokenCreated = true
    ∧ (Bind c10Env "addr" c10State "iX" "b1").2.2.revokeAttempts = []
    ∧ (Bind c10Env "addr" c10State "iX" "b1").2.2.revokeWarnings = []
    ∧ (Bind c10Env "addr" c10State "iX" "b1").2.2.renewersSpawned = [] :=
  claim_C10_bind_unknown_instance c10Env "addr" c10State "iX" "b1"
    ⟨some ⟨"tok", "acc"⟩⟩ ⟨"tok", "acc"⟩ rfl rfl rfl

/-- Claim C1, amended: during the recovery walk a persisted instance or
binding object that is missing or empty is logged and skipped and the
walk continues; but an object that fails to decode aborts `Start` — the
decode error is wrapped and returned, so corruption of a single persisted
object does abort startup. -/
theorem claim_C1_amended :
    (∀ (store : VaultStore) (st : RestoreState) (id : String),
       storeRead store ("cf/broker/" ++ id) = none →
       restoreInstance store st id = .ok st)
    ∧ (∀ (store : VaultStore) (st : RestoreState) (id : String) (data : SecretData),
       storeRead store ("cf/broker/" ++ id) = some data → data.isEmpty = true →
       restoreInstance store st id = .ok st)
    ∧ (∀ (store : VaultStore) (st : RestoreState) (id : String) (data : SecretData) (e : String),
       storeRead store ("cf/broker/" ++ id) = some data → data.isEmpty = false →
       decodeDetails data = .error e →
       restoreInstance store st id
         = .error ("failed to decode instance info for " ++ ("cf/broker/" ++ id) ++ ": " ++ e))
    ∧ (∀ (store : VaultStore) (st : RestoreState) (iid bid : String)
         (data : SecretData) (e : String),
       storeRead store ("cf/broker/" ++ iid ++ "/" ++ bid) = some data → data.isEmpty = false →
       decodeBindingInfo data = .error e →
       restoreBind store st iid bid
         = .error ("failed to decode binding info for "
             ++ ("cf/broker/" ++ iid ++ "/" ++ bid) ++ ": " ++ e))
    ∧ (∀ (store : VaultStore) (listB : String → List String) (st : RestoreState)
         (i : String) (rest : List String) (e : String),
       restoreInstance store st (trimSlashes i) = .error e →
       startRestore store listB (i :: rest) st
         = .error ("failed to restore instance data for " ++ trimSlashes i ++ ": " ++ e)) := by
  refine ⟨?_, ?_, ?_, ?_, ?_⟩
  · intro store st id h
    simp [restoreInstance, h]
  · intro store st id data h hemp
    simp [restoreInstance, h, hemp]
  · intro store st id data e h hemp hdec
    simp [restoreInstance, h, hemp, hdec]
  · intro store st iid bid data e h hemp hdec
    simp [restoreBind, h, hemp, hdec]
  · intro store listB st i rest e h
    simp [startRestore, h]

/-- A well-formed instance persisted at `cf/broker/i2`. -/
def c1GoodDetails : Details := ⟨"", "og", "", "sg", "", "i2"⟩

/-- A persisted tree with one corrupt instance (`i1`), one good instance
(`i2`), one empty instance entry (`i3`) and one corrupt binding
(`i2/b1`). -/
def c1Store : VaultStore :=
  [("cf/broker/i1", [("json", VaultVal.str "oops")]),
   ("cf/broker/i2", storeDetails c1GoodDetails),
   ("cf/broker/i3", []),
   ("cf/broker/i2/b1", [("json", VaultVal.str "bad")])]

/-- A binding listing that reports no bindings for any instance. -/
def c1NoBinds : String → List String := fun _ => []

/-- The empty restore state `Start` begins from. -/
def c1Init : RestoreState := ⟨[], [], []⟩

set_option maxRecDepth 100000 in
/-- Claim C1 counterexample: with a single corrupt persisted instance in
the walk, `Start` does not complete without error (the corrupt entry is
not skipped), although the same walk over only the intact entry
succeeds. -/
theorem claim_C1_counterexample :
    (startRestore c1Store c1NoBinds ["i1", "i2"] c1Init).isOk = false
    ∧ (startRestore c1Store c1NoBinds ["i2"] c1Init).isOk = true :=
  ⟨by decide, by decide⟩

set_option maxRecDepth 100000 in
/-- Claim C1 witness: each clause of the amended statement at a concrete
store — a missing entry and an empty entry are skipped, a corrupt
instance and a corrupt binding return decode errors, and a corrupt first
instance aborts the walk. -/
theorem claim_C1_witness :
    restoreInstance c1Store c1Init "zz" = .ok c1Init
    ∧ restoreInstance c1Store c1Init "i3" = .ok c1Init
    ∧ restoreInstance c1Store c1Init "i1"
        = .error ("failed to decode instance info for " ++ ("cf/broker/" ++ "i1")
            ++ ": " ++ "invalid json")
    ∧ restoreBind c1Store c1Init "i2" "b1"
        = .error ("failed to decode binding info for "
            ++ ("cf/broker/" ++ "i2" ++ "/" ++ "b1") ++ ": " ++ "invalid json")
    ∧ startRestore c1Store c1NoBinds ["i1"] c1Init
        = .error ("failed to restore instance data for " ++ trimSlashes "i1" ++ ": "
            ++ ("failed to decode instance info for " ++ ("cf/broker/" ++ trimSlashes "i1")
                ++ ": " ++ "invalid json")) :=
  ⟨claim_C1_amended.1 c1Store c1Init "zz" (by decide),
   claim_C1_amended.2.1 c1Store c1Init "i3" [] (by decide) (by decide),
   claim_C1_amended.2.2.1 c1Store c1Init "i1" [("json", VaultVal.str "oops")] "invalid json"
     (by decide) (by decide) rfl,
   claim_C1_amended.2.2.2.1 c1Store c1Init "i2" "b1" [("json", VaultVal.str "bad")] "invalid json"
     (by decide) (by decide) rfl,
   claim_C1_amended.2.2.2.2 c1Store c1NoBinds c1Init "i1" [] _
     (claim_C1_amended.2.2.1 c1Store c1Init (trimSlashes "i1")
       [("json", VaultVal.str "oops")] "invalid json" (by decide) (by decide) rfl)⟩

end VaultBroker
